import Mathlib

/-!
Verification of the PySyft `TorchHook` dispatch core
(`src/syft/frameworks/torch/hook.py`).

The development shallowly embeds the hooking/dispatch machinery of the file:

* `SyftVal` models the values dispatch distinguishes: a bare native tensor
  (no `child` attribute), a wrapping `torch.Tensor` (has a `child`), a
  `LoggingTensor` decorating layer, and a `PointerTensor` holding routing
  data (`owner`, `location`, `id_at_location`).
* `hookedMethodDispatch` embeds the three hooked-method closures produced by
  `get_hooked_method`, `get_hooked_syft_method` and
  `get_hooked_pointer_method`; the branch taken is determined by the class
  of the receiver, exactly as attribute lookup determines which installed
  closure runs in Python.
* The attribute-table state machine (`AttrMap`, `hookOneMethod`, ...)
  embeds `_hook_native_methods`, `_hook_pointer_tensor_methods`,
  `_hook_syft_tensor_methods` and `_hook_torch_module`, and
  `torchHookInit` embeds `TorchHook.__init__`.
* `Member` / `whichMethodsShouldWeAutoOverload` embed the introspection in
  `_which_methods_should_we_auto_overload`.
* `idGet` embeds the `id` property installed by `_hook_properties`,
  with `random.random()` modelled as a rational in `[0, 1)`.

The helper modules `syft.frameworks.torch.hook_args` (functions
`hook_method_args` / `hook_response`) and the tensor classes themselves are
not part of the analysed source; where the dispatch code calls into them
they are modelled from the specification, and each such definition is
marked `Modelled from the spec:` in its doc comment.
-/

namespace SyftHook

/-- Values as seen by the dispatch machinery: a bare native tensor holding
raw data, a `torch.Tensor` wrapper with a `child`, a `LoggingTensor`
decorating layer, or a `PointerTensor` carrying `(owner, location,
id_at_location)` routing metadata and no data. -/
inductive SyftVal where
  | native (n : Int)
  | wrapper (child : SyftVal)
  | logging (child : SyftVal)
  | pointer (owner location idAtLocation : Nat)
deriving DecidableEq, Repr

/-- The command triple built by the dispatchers:
`(operation_name, receiver, positional arguments)`.  The receiver is
`none` for module-level functions (`get_hooked_func`). -/
abbrev Command := String × Option SyftVal × List SyftVal

/-- Keyword arguments of a Python call, modelled as an association list of
keyword name to (native) value. -/
abbrev Kwargs := List (String × Int)

/-- The table of saved native originals: `ops attr` is the behaviour of the
method saved under `native_attr` on the native tensor type.  It receives
the raw receiver value, the positional arguments as passed, and the
keyword arguments (an absent keyword list `[]` means the native defaults
apply). -/
abbrev NativeOps := String → Int → List SyftVal → Kwargs → Int

/-- The external collaborator `owner.send_command(location, command)`,
indexed by the owner worker id and the location worker id. -/
abbrev SendCommand := Nat → Nat → Command → SyftVal

/-- Modelled from the spec: `syft.frameworks.torch.hook_args.hook_method_args`
(not part of the analysed source) replaces the receiver and every
wrapper/decorator found among the arguments by its immediate inner
representation — exactly one level of unwrapping; bare natives and
pointers pass through. -/
def unwrapArg : SyftVal → SyftVal
  | .wrapper c => c
  | .logging c => c
  | .native n => .native n
  | .pointer w l i => .pointer w l i

/-- Result of running a hooked method: the returned value, the list of
`(owner, location, command)` triples passed to `send_command`, and how many
times a saved native original was executed locally. -/
structure DResult where
  response : SyftVal
  sent : List (Nat × Nat × Command)
  nativeCalls : Nat
deriving DecidableEq, Repr

/-- The hooked method installed for operation `attr`, as a function of the
receiver's class:

* `.native` receiver — `get_hooked_method`, `hasattr(self, "child")` false:
  run the saved original `native_attr` as `cmd(*args)`; NB the source calls
  `cmd(*args)` without `**kwargs`, so the keyword arguments are replaced by
  the empty keyword list.
* `.wrapper` receiver — `get_hooked_method`, wrapper branch: unwrap
  receiver and args one level (`hook_method_args`), call the same-named
  attribute of the unwrapped receiver with `cmd(*new_args, **kwargs)`, then
  rehydrate the response with `wrap_type = type(self)` (`hook_response`,
  modelled from the spec as wrapping in the receiver's own layer).
* `.logging` receiver — `get_hooked_syft_method`: identical shape, with
  `wrap_type = LoggingTensor`.
* `.pointer` receiver — `get_hooked_pointer_method`: build
  `command = (attr, self, args)` and return
  `owner.send_command(location, command)` verbatim; nothing runs locally
  and the keyword arguments are dropped. -/
def hookedMethodDispatch (ops : NativeOps) (send : SendCommand) (attr : String) :
    SyftVal → List SyftVal → Kwargs → DResult
  | .native n, args, _kwargs =>
      ⟨.native (ops attr n args []), [], 1⟩
  | .wrapper c, args, kwargs =>
      let res := hookedMethodDispatch ops send attr c (args.map unwrapArg) kwargs
      ⟨.wrapper res.response, res.sent, res.nativeCalls⟩
  | .logging c, args, kwargs =>
      let res := hookedMethodDispatch ops send attr c (args.map unwrapArg) kwargs
      ⟨.logging res.response, res.sent, res.nativeCalls⟩
  | .pointer w l i, args, _kwargs =>
      ⟨send w l (attr, some (.pointer w l i), args),
       [(w, l, (attr, some (.pointer w l i), args))], 0⟩

/-- Unwrapping a bare native argument is the identity, so a list of native
arguments is unchanged by `hook_method_args`. -/
theorem map_unwrapArg_native (ns : List Int) :
    List.map (unwrapArg ∘ SyftVal.native) ns = List.map SyftVal.native ns :=
  List.map_congr_left (fun _ _ => rfl)

/-- C1: invoking an eligible operation on a `torch.Tensor` wrapper or on a
decorating `LoggingTensor` whose child is a native value, with native
arguments, unwraps one level, runs the same-named operation on the inner
native value with the same arguments, and rehydrates with the outward type
of the receiver, so the inner value of the result is exactly the native
result; nothing is sent remotely and the native original runs once. -/
theorem hooked_method_local_round_trip (ops : NativeOps) (send : SendCommand)
    (attr : String) (a : Int) (ns : List Int) :
    hookedMethodDispatch ops send attr (.wrapper (.native a)) (ns.map SyftVal.native) [] =
      ⟨.wrapper (.native (ops attr a (ns.map SyftVal.native) [])), [], 1⟩ ∧
    hookedMethodDispatch ops send attr (.logging (.native a)) (ns.map SyftVal.native) [] =
      ⟨.logging (.native (ops attr a (ns.map SyftVal.native) [])), [], 1⟩ := by
  constructor <;> simp [hookedMethodDispatch, List.map_map, map_unwrapArg_native]

/-- C2: invoking an eligible operation on a receiver whose representation
is a Pointer with owner `w` and location `l` sends exactly one command,
the triple `(attr, receiver, args)` with the arguments unmodified, to
`send_command` of owner `w` with destination `l`; the response is returned
verbatim (no rehydration) and no native original is executed locally,
whatever keyword arguments were supplied. -/
theorem hooked_pointer_method_forwards (ops : NativeOps) (send : SendCommand)
    (attr : String) (w l i : Nat) (args : List SyftVal) (kwargs : Kwargs) :
    hookedMethodDispatch ops send attr (.pointer w l i) args kwargs =
      ⟨send w l (attr, some (.pointer w l i), args),
       [(w, l, (attr, some (.pointer w l i), args))], 0⟩ := rfl

/-- A saved-original table whose result depends on the keyword argument
`k`: it returns the receiver plus the value of `k` (default `0`). -/
def kwSensitiveOps : NativeOps :=
  fun _ n _ kw => n + ((kw.lookup "k").getD 0)

/-- A `send_command` oracle that is never reached in the local scenarios. -/
def nullSend : SendCommand := fun _ _ _ => .native 0

/-- C3, counterexample: on a bare native receiver the hooked method drops
the caller's keyword arguments.  With the keyword argument `k := 5`
supplied, the dispatched call returns `2` (the saved original run with no
keywords), while the saved original executed with all supplied arguments,
keywords included, returns `7`. -/
theorem hooked_method_native_kwargs_counterexample :
    hookedMethodDispatch kwSensitiveOps nullSend "f" (.native 2) [] [("k", 5)] =
      ⟨.native 2, [], 1⟩ ∧
    kwSensitiveOps "f" 2 [] [("k", 5)] = 7 := by
  constructor <;> rfl

/-- C3, amended: on a bare native receiver (no `child` attribute) the
hooked method executes the previously saved original operation
(`native_attr`) directly with the positional arguments the caller
supplied — keyword arguments are not forwarded on this path, the original
runs with an empty keyword list — and returns its result; nothing is sent
remotely. -/
theorem hooked_method_native_escape (ops : NativeOps) (send : SendCommand)
    (attr : String) (n : Int) (args : List SyftVal) (kwargs : Kwargs) :
    hookedMethodDispatch ops send attr (.native n) args kwargs =
      ⟨.native (ops attr n args []), [], 1⟩ := rfl

/-- Test `strStarts pat s`: the character list `s` begins with `pat`. -/
def strStarts : List Char → List Char → Bool
  | [], _ => true
  | _ :: _, [] => false
  | p :: ps, c :: cs => (p == c) && strStarts ps cs

/-- Test `strHas pat s`: `pat` occurs somewhere inside the character list `s`
(Python's `pat in s`). -/
def strHas (pat : List Char) : List Char → Bool
  | [] => strStarts pat []
  | c :: cs => strStarts pat (c :: cs) || strHas pat cs

/-- Python's substring test `pat in s` on strings. -/
def strContains (s pat : String) : Bool := strHas pat.toList s.toList

/-- Python's `re.match("native*", attr) is not None`: the pattern is the
literal `nativ` followed by zero or more `e`, anchored at the start, so it
holds exactly when `attr` starts with `"nativ"`. -/
def strStartsWith (s pat : String) : Bool := strStarts pat.toList s.toList

/-- What introspection sees of one member of the native tensor type, as
used by `_which_methods_should_we_auto_overload`: its name in
`dir(tensor_type)`, whether `getattr` succeeds (`hasattr`), the
`inspect.ismethoddescriptor` and `isinstance(·, types.FunctionType)`
classifications, its `__qualname__` (`none` models the attribute being
missing, so that reading it raises `AttributeError`), and whether the name
is inherited from `object` (`attr in dir(object)`). -/
structure Member where
  name : String
  gettable : Bool
  isMethodDescriptor : Bool
  isFunctionType : Bool
  qualname : Option String
  inDirObject : Bool
deriving DecidableEq, Repr

/-- Flag `is_service_func`: `"HookService" in lit.__qualname__`, with the
`AttributeError` raised by a missing `__qualname__` caught and turned into
`False`. -/
def isServiceQual : Option String → Bool
  | none => false
  | some q => strContains q "HookService"

/-- The per-member selection condition of
`_which_methods_should_we_auto_overload`: not in `syft.torch.exclude`,
`hasattr` holds, and
`(is_desc or (is_func and not is_service_func)) and not is_base and not
is_overloaded`. -/
def selectMember (exclude : List String) (m : Member) : Bool :=
  !(exclude.contains m.name) && m.gettable &&
    ((m.isMethodDescriptor || (m.isFunctionType && !(isServiceQual m.qualname))) &&
      !m.inDirObject && !(strStartsWith m.name "nativ"))

/-- Embedding of `_which_methods_should_we_auto_overload`: walk `dir(tensor_type)` and
keep the names passing `selectMember`. -/
def whichMethodsShouldWeAutoOverload (exclude : List String) (members : List Member) :
    List String :=
  (members.filter (fun m => selectMember exclude m)).map Member.name

/-- The eligibility condition as the specification words it (claim C4),
kept separate from the source-derived `selectMember` for comparison: not
in the exclusion set, resolves to a callable member (a method descriptor
or a function), the name does not already denote the saved native original
(`native_` prefix), and not inherited from `object`. -/
def specEligible (exclude : List String) (m : Member) : Bool :=
  !(exclude.contains m.name) && m.gettable &&
    (m.isMethodDescriptor || m.isFunctionType) &&
    !(strStartsWith m.name "native_") && !m.inDirObject

/-- A module-level function named `foo` whose `__qualname__` marks it as a
`HookService` member. -/
def svcMember : Member :=
  { name := "foo", gettable := true, isMethodDescriptor := false,
    isFunctionType := true, qualname := some "HookService.foo", inDirObject := false }

/-- C4, counterexample: the claimed characterisation of eligibility is not
an `iff`.  The member `svcMember` satisfies every condition the claim
lists (not excluded, a callable function, no `native_` name, not from
`object`), yet `_which_methods_should_we_auto_overload` rejects it because
its `__qualname__` contains `"HookService"`. -/
theorem which_methods_claim_counterexample :
    specEligible [] svcMember = true ∧
    whichMethodsShouldWeAutoOverload [] [svcMember] = [] := by
  constructor <;> rfl

/-- Names listed by `contains` are exactly the members of the list. -/
theorem contains_eq_true_iff (l : List String) (a : String) :
    l.contains a = true ↔ a ∈ l := by
  simp [List.contains]

/-- Unfolding of the selection condition into its component flags. -/
theorem selectMember_eq_true_iff (exclude : List String) (m : Member) :
    selectMember exclude m = true ↔
      (exclude.contains m.name = false ∧ m.gettable = true ∧
        (m.isMethodDescriptor = true ∨
          (m.isFunctionType = true ∧ isServiceQual m.qualname = false)) ∧
        m.inDirObject = false ∧ strStartsWith m.name "nativ" = false) := by
  simp only [selectMember, Bool.and_eq_true, Bool.or_eq_true, Bool.not_eq_true', and_assoc]

/-- C4, amended: an operation name of the native type is selected iff it
is not in the exclusion set, it resolves (`hasattr`) to a member that is a
method descriptor or a function whose `__qualname__` does not contain
`"HookService"`, its name does not start with `"nativ"` (the anchored
`native*` prefix test that screens out saved native originals), and it is
not inherited from `object`; consequently no name of the exclusion set is
ever in the overload list (so no dispatcher is installed for it). -/
theorem which_methods_eligibility (exclude : List String) (members : List Member)
    (m : Member) (hm : m ∈ members) (hnd : (members.map Member.name).Nodup) :
    (m.name ∈ whichMethodsShouldWeAutoOverload exclude members ↔
      (exclude.contains m.name = false ∧ m.gettable = true ∧
        (m.isMethodDescriptor = true ∨
          (m.isFunctionType = true ∧ isServiceQual m.qualname = false)) ∧
        m.inDirObject = false ∧ strStartsWith m.name "nativ" = false)) ∧
    ∀ n ∈ exclude, n ∉ whichMethodsShouldWeAutoOverload exclude members := by
  constructor
  · constructor
    · intro hmem
      rcases List.mem_map.mp hmem with ⟨m', hm', hname⟩
      rcases List.mem_filter.mp hm' with ⟨hmm', hsel⟩
      have hmm : m' = m := List.inj_on_of_nodup_map hnd hmm' hm hname
      exact hmm ▸ ((selectMember_eq_true_iff exclude m').mp hsel)
    · intro hprops
      apply List.mem_map.mpr
      exact ⟨m, List.mem_filter.mpr
        ⟨hm, (selectMember_eq_true_iff exclude m).mpr hprops⟩, rfl⟩
  · intro n hn hmem
    rcases List.mem_map.mp hmem with ⟨m', hm', hname⟩
    rcases List.mem_filter.mp hm' with ⟨_, hsel⟩
    have hcon := ((selectMember_eq_true_iff exclude m').mp hsel).1
    rw [hname] at hcon
    rw [(contains_eq_true_iff exclude n).mpr hn] at hcon
    simp at hcon

/-- A plain interceptable method named `abs`. -/
def absMember : Member :=
  { name := "abs", gettable := true, isMethodDescriptor := true,
    isFunctionType := false, qualname := some "Tensor.abs", inDirObject := false }

/-- Witness for C4's amended theorem: instantiated on the singleton member
list `[absMember]` with exclusion set `["share"]`. -/
theorem which_methods_eligibility_witness :
    absMember ∈ [absMember] ∧ ([absMember].map Member.name).Nodup ∧
    (("abs" ∈ whichMethodsShouldWeAutoOverload ["share"] [absMember]) ∧
      ∀ n ∈ ["share"], n ∉ whichMethodsShouldWeAutoOverload ["share"] [absMember]) := by
  refine ⟨by simp, by simp, ?_, ?_⟩
  · exact (which_methods_eligibility ["share"] [absMember] absMember (by simp)
      (by simp)).1.mpr (by constructor <;> first | rfl | exact ⟨rfl, Or.inl rfl, rfl, rfl⟩)
  · exact (which_methods_eligibility ["share"] [absMember] absMember (by simp)
      (by simp)).2

/-- A method descriptor named `qux` with no `__qualname__` attribute, so
inspecting it raises `AttributeError` inside the classification loop. -/
def noQualMember : Member :=
  { name := "qux", gettable := true, isMethodDescriptor := true,
    isFunctionType := false, qualname := none, inDirObject := false }

/-- C6, counterexample: a member whose `__qualname__` is missing (so
introspection raises `AttributeError`) is not conservatively excluded: the
method descriptor `qux` with no `__qualname__` ends up in the overload
list, i.e. it is intercepted. -/
theorem unclassifiable_member_counterexample :
    noQualMember.qualname = none ∧
    whichMethodsShouldWeAutoOverload [] [noQualMember] = ["qux"] := by
  constructor <;> rfl

/-- C6, amended: the capability computation never raises — the
`AttributeError` from a missing `__qualname__` is caught and the member is
treated as not a service function, so its selection is decided by the
remaining flags alone: it is selected iff it is not excluded, resolves, is
a method descriptor or a function, is not from `object` and has no
`nativ` prefix; in particular a member that is neither a descriptor nor a
function is excluded rather than erroring. -/
theorem unclassifiable_member_handling (exclude : List String) (m : Member)
    (hq : m.qualname = none) :
    selectMember exclude m =
      (!(exclude.contains m.name) && m.gettable &&
        (m.isMethodDescriptor || m.isFunctionType) &&
        !m.inDirObject && !(strStartsWith m.name "nativ")) ∧
    (m.isMethodDescriptor = false → m.isFunctionType = false →
      selectMember exclude m = false) := by
  constructor
  · cases hd : m.isMethodDescriptor <;> cases hf : m.isFunctionType <;>
      simp [selectMember, isServiceQual, hq, hd, hf, Bool.and_assoc, Bool.and_comm,
        Bool.and_left_comm]
  · intro hd hf
    simp [selectMember, hd, hf]

/-- Witness for C6's amended theorem: instantiated on the descriptor
`noQualMember`, whose `__qualname__` is absent. -/
theorem unclassifiable_member_handling_witness :
    noQualMember.qualname = none ∧
    (selectMember ["share"] noQualMember =
      (!(["share"].contains noQualMember.name) && noQualMember.gettable &&
        (noQualMember.isMethodDescriptor || noQualMember.isFunctionType) &&
        !noQualMember.inDirObject && !(strStartsWith noQualMember.name "nativ")) ∧
    (noQualMember.isMethodDescriptor = false → noQualMember.isFunctionType = false →
      selectMember ["share"] noQualMember = false)) :=
  ⟨rfl, unclassifiable_member_handling ["share"] noQualMember rfl⟩

/-- A value stored in a class attribute slot: a native method (identified
by a tag), or one of the hooked closures produced by `get_hooked_method`,
`get_hooked_pointer_method` and `get_hooked_syft_method` for an operation
name. -/
inductive AttrVal where
  | nativeMethod (tag : String)
  | hookedMethod (attr : String)
  | hookedPointerMethod (attr : String)
  | hookedSyftMethod (attr : String)
deriving DecidableEq, Repr

/-- The attribute table of a class: `dir` membership is `isSome`. -/
abbrev AttrMap := String → Option AttrVal

/-- Python's `setattr(cls, k, v)`. -/
def setAttr (m : AttrMap) (k : String) (v : AttrVal) : AttrMap :=
  fun x => if x = k then some v else m x

/-- One iteration of the loop in `_hook_native_methods`: if
`native_attr` is not already in `dir(tensor_type)`, save the current
method under `native_attr` and install the hooked method under `attr`
(when `attr` is absent, `getattr` would fail; names fed to the loop come
from `dir`, so the member is present and the `none` case is a no-op
guard of the model). -/
def hookOneMethod (m : AttrMap) (attr : String) : AttrMap :=
  match m ("native_" ++ attr) with
  | some _ => m
  | none =>
      match m attr with
      | none => m
      | some v => setAttr (setAttr m ("native_" ++ attr) v) attr (.hookedMethod attr)

/-- Embedding of `_hook_native_methods`: hook every name of the auto-overload list on
the native tensor type. -/
def hookNativeMethods (m : AttrMap) (toOverload : List String) : AttrMap :=
  toOverload.foldl hookOneMethod m

/-- One iteration of the loops in `_hook_pointer_tensor_methods` and
`_hook_syft_tensor_methods`: install a hooked method under `attr` only
when `attr` is not already in `dir` of the class. -/
def hookClassMethodWith (mk : String → AttrVal) (m : AttrMap) (attr : String) : AttrMap :=
  match m attr with
  | some _ => m
  | none => setAttr m attr (mk attr)

/-- Embedding of `_hook_pointer_tensor_methods`: add the remote dispatchers to
`PointerTensor` under names it does not already define. -/
def hookPointerTensorMethods (m : AttrMap) (toOverload : List String) : AttrMap :=
  toOverload.foldl (hookClassMethodWith .hookedPointerMethod) m

/-- Embedding of `_hook_syft_tensor_methods`: add the decorating dispatchers to
`LoggingTensor` under names it does not already define. -/
def hookSyftTensorMethods (m : AttrMap) (toOverload : List String) : AttrMap :=
  toOverload.foldl (hookClassMethodWith .hookedSyftMethod) m

/-- Adding hooked methods with `hookClassMethodWith` never changes an
attribute that is already present. -/
theorem foldl_hookClassMethodWith_preserves (mk : String → AttrVal)
    (L : List String) (cls : AttrMap) (k : String) (v : AttrVal)
    (h : cls k = some v) :
    (L.foldl (hookClassMethodWith mk) cls) k = some v := by
  induction L generalizing cls with
  | nil => exact h
  | cons a t ih =>
      apply ih
      unfold hookClassMethodWith
      cases ha : cls a with
      | some w => exact h
      | none =>
          unfold setAttr
          by_cases hk : k = a
          · rw [hk] at h; rw [h] at ha; cases ha
          · simp [hk, h]

/-- C9: installing hooked methods on the `PointerTensor` class and on the
`LoggingTensor` class only adds methods under names that are not already
present: every attribute the class defined before hooking still holds the
same value afterwards. -/
theorem hook_class_methods_preserve_existing (cls : AttrMap) (L : List String)
    (k : String) (v : AttrVal) (h : cls k = some v) :
    hookPointerTensorMethods cls L k = some v ∧
    hookSyftTensorMethods cls L k = some v :=
  ⟨foldl_hookClassMethodWith_preserves _ L cls k v h,
   foldl_hookClassMethodWith_preserves _ L cls k v h⟩

/-- A concrete `PointerTensor`-like attribute table defining only a
`__init__` native method. -/
def ptrClassExample : AttrMap :=
  fun k => if k = "ptr_init" then some (.nativeMethod "ptr_init") else none

/-- Witness for C9: the pre-existing `ptr_init` attribute of the example
class survives hooking the overload list `["abs", "ptr_init"]` on both
classes. -/
theorem hook_class_methods_preserve_existing_witness :
    ptrClassExample "ptr_init" = some (.nativeMethod "ptr_init") ∧
    (hookPointerTensorMethods ptrClassExample ["abs", "ptr_init"] "ptr_init" =
        some (.nativeMethod "ptr_init") ∧
      hookSyftTensorMethods ptrClassExample ["abs", "ptr_init"] "ptr_init" =
        some (.nativeMethod "ptr_init")) :=
  ⟨rfl, hook_class_methods_preserve_existing ptrClassExample ["abs", "ptr_init"]
    "ptr_init" (.nativeMethod "ptr_init") rfl⟩

/-- Prefixing a string with `native_` changes it. -/
theorem native_prefix_ne (s : String) : "native_" ++ s ≠ s := by
  intro h
  have hl := congrArg String.length h
  rw [String.length_append] at hl
  have h7 : ("native_" : String).length = 7 := rfl
  rw [h7] at hl
  omega

/-- Identity of a module-level function: its `__module__` and `__name__`
(`functools.wraps` copies both onto the hooked closure). -/
structure ModFunc where
  moduleName : String
  funcName : String
deriving DecidableEq, Repr

/-- A module attribute as `_hook_torch_module` sees it: either a native
attribute — with a flag telling whether
`type(·) in [types.FunctionType, types.BuiltinFunctionType]` — or a
hooked closure produced by `get_hooked_func` (closures are themselves
`FunctionType`). -/
inductive ModAttr where
  | nativeFunc (proper : Bool) (f : ModFunc)
  | hookedFunc (f : ModFunc)
deriving DecidableEq, Repr

/-- Python's `type(native_func) in [types.FunctionType, types.BuiltinFunctionType]`. -/
def ModAttr.isProperFunction : ModAttr → Bool
  | .nativeFunc p _ => p
  | .hookedFunc _ => true

/-- The `__module__`/`__name__` metadata of a module attribute. -/
def ModAttr.funcMeta : ModAttr → ModFunc
  | .nativeFunc _ f => f
  | .hookedFunc f => f

/-- The attribute table of a torch module (`torch.nn.functional`). -/
abbrev ModMap := String → Option ModAttr

/-- Python's `setattr(torch_module, k, v)`. -/
def setModAttr (m : ModMap) (k : String) (v : ModAttr) : ModMap :=
  fun x => if x = k then some v else m x

/-- One iteration of the loop in `_hook_torch_module`: skip names in
`syft.torch.exclude`, skip names containing `native_` or whose
`native_`-prefixed slot already exists; otherwise, when the attribute is a
proper function, save it under `native_func` and install the hooked
closure under `func`. -/
def hookModuleFunc (exclude : List String) (m : ModMap) (func : String) : ModMap :=
  match exclude.contains func with
  | true => m
  | false =>
      match strContains func "native_" || (m ("native_" ++ func)).isSome with
      | true => m
      | false =>
          match m func with
          | none => m
          | some a =>
              match a.isProperFunction with
              | true =>
                  setModAttr (setModAttr m ("native_" ++ func) a) func
                    (ModAttr.hookedFunc a.funcMeta)
              | false => m

/-- Embedding of `_hook_torch_module`: fold the hooking step over the `dir` snapshot of
the module. -/
def hookTorchModule (exclude : List String) (m : ModMap) (names : List String) : ModMap :=
  names.foldl (hookModuleFunc exclude) m

/-- The hooked closure built by `get_hooked_func` for the module function
`f`: it builds `cmd_name = f"{attr.__module__}.{attr.__name__}"`, the
command `(cmd_name, None, args)` — keyword arguments are not included —
and returns `TorchTensor.handle_func_command(command)`.
`handle_func_command` lives in the tensor classes outside the analysed
source, so it is an oracle parameter here. -/
def get_hooked_func (handle : Command → SyftVal) (f : ModFunc)
    (args : List SyftVal) (_kwargs : List (String × SyftVal)) : SyftVal :=
  handle (f.moduleName ++ "." ++ f.funcName, none, args)

/-- Invariant of module hooking: hooked closures sit only at names outside
the exclusion set that do not contain `native_`, and their saved original
is present. -/
def HookedOnlyAtAllowed (exclude : List String) (m : ModMap) : Prop :=
  ∀ k g, m k = some (ModAttr.hookedFunc g) →
    exclude.contains k = false ∧ strContains k "native_" = false ∧
      (m ("native_" ++ k)).isSome = true

/-- Writing with `setModAttr` never erases a present attribute. -/
theorem setModAttr_isSome (m : ModMap) (k x : String) (v : ModAttr)
    (h : (m x).isSome = true) : ((setModAttr m k v) x).isSome = true := by
  unfold setModAttr
  by_cases hx : x = k <;> simp [hx, h]

/-- One hooking step preserves the invariant. -/
theorem hookModuleFunc_invariant (exclude : List String) (m : ModMap) (func : String)
    (hinv : HookedOnlyAtAllowed exclude m) :
    HookedOnlyAtAllowed exclude (hookModuleFunc exclude m func) := by
  cases hex : exclude.contains func with
  | true =>
      have hred : hookModuleFunc exclude m func = m := by
        simp only [hookModuleFunc, hex]
      rw [hred]; exact hinv
  | false =>
  cases hguard : strContains func "native_" || (m ("native_" ++ func)).isSome with
  | true =>
      have hred : hookModuleFunc exclude m func = m := by
        simp only [hookModuleFunc, hex, hguard]
      rw [hred]; exact hinv
  | false =>
  have hnat : strContains func "native_" = false := (Bool.or_eq_false_iff.mp hguard).1
  have hns : (m ("native_" ++ func)).isSome = false := (Bool.or_eq_false_iff.mp hguard).2
  cases hf : m func with
  | none =>
      have hred : hookModuleFunc exclude m func = m := by
        simp only [hookModuleFunc, hex, hguard, hf]
      rw [hred]; exact hinv
  | some a =>
  cases hp : a.isProperFunction with
  | false =>
      have hred : hookModuleFunc exclude m func = m := by
        simp only [hookModuleFunc, hex, hguard, hf, hp]
      rw [hred]; exact hinv
  | true =>
  have hred : hookModuleFunc exclude m func =
      setModAttr (setModAttr m ("native_" ++ func) a) func
        (ModAttr.hookedFunc a.funcMeta) := by
    simp only [hookModuleFunc, hex, hguard, hf, hp]
  rw [hred]
  intro k g hk
  by_cases hkf : k = func
  · subst hkf
    refine ⟨hex, hnat, ?_⟩
    apply setModAttr_isSome
    unfold setModAttr
    have hne := native_prefix_ne k
    simp [hne]
  · have hk' : (if k = "native_" ++ func then some a else m k) =
        some (ModAttr.hookedFunc g) := by
      unfold setModAttr at hk
      simpa [hkf] using hk
    by_cases hkn : k = "native_" ++ func
    · -- the value written at the saved slot is `a`, so `a` would be a
      -- hooked closure already installed at `func`, contradicting the
      -- absent saved slot of `func`
      rw [if_pos hkn] at hk'
      have hag : a = ModAttr.hookedFunc g := Option.some.inj hk'
      rw [hag] at hf
      exact absurd ((hinv func g hf).2.2) (by simp [hns])
    · rw [if_neg hkn] at hk'
      obtain ⟨h1, h2, h3⟩ := hinv k g hk'
      exact ⟨h1, h2, setModAttr_isSome _ _ _ _ (setModAttr_isSome _ _ _ _ h3)⟩

/-- The invariant holds after folding the hooking step over any name
list. -/
theorem hookTorchModule_invariant (exclude : List String) (names : List String)
    (m : ModMap) (hinv : HookedOnlyAtAllowed exclude m) :
    HookedOnlyAtAllowed exclude (hookTorchModule exclude m names) := by
  induction names generalizing m with
  | nil => exact hinv
  | cons a t ih => exact ih _ (hookModuleFunc_invariant exclude m a hinv)

/-- C7: the hooked module-level function builds exactly the command
`(module-qualified name, none, positional args)` — the keyword arguments
are not part of it and do not influence the call — and returns the result
of the single global entry point `handle_func_command` on that command;
and hooking a pristine module never installs a hooked closure at a name
of the exclusion set or at a name carrying the `native_` artifact
marker. -/
theorem hooked_func_command_shape :
    (∀ (handle : Command → SyftVal) (f : ModFunc) (args : List SyftVal)
        (kw kw' : List (String × SyftVal)),
      get_hooked_func handle f args kw =
        handle (f.moduleName ++ "." ++ f.funcName, none, args) ∧
      get_hooked_func handle f args kw = get_hooked_func handle f args kw') ∧
    (∀ (exclude : List String) (m : ModMap) (names : List String),
      (∀ k g, m k ≠ some (ModAttr.hookedFunc g)) →
      ∀ func, (exclude.contains func = true ∨ strContains func "native_" = true) →
        ∀ g, hookTorchModule exclude m names func ≠ some (ModAttr.hookedFunc g)) := by
  constructor
  · intro handle f args kw kw'
    exact ⟨rfl, rfl⟩
  · intro exclude m names hprist func hfunc g hk
    have hinv : HookedOnlyAtAllowed exclude m := by
      intro k g hkk
      exact absurd hkk (hprist k g)
    obtain ⟨h1, h2, _⟩ := hookTorchModule_invariant exclude names m hinv func g hk
    rcases hfunc with hf | hf
    · rw [hf] at h1; cases h1
    · rw [hf] at h2; cases h2

/-- A pristine one-function module: `torch.nn.functional` holding only
the native `conv2d`. -/
def exampleModule : ModMap :=
  fun k =>
    if k = "conv2d" then some (.nativeFunc true ⟨"torch.nn.functional", "conv2d"⟩)
    else none

/-- Witness for C7: on the pristine example module, hooking with the
exclusion set `["relu"]` installs no hooked closure at the excluded name
`relu` nor at the artifact name `native_conv2d`. -/
theorem hooked_func_command_shape_witness :
    hookTorchModule ["relu"] exampleModule ["conv2d", "relu"] "relu" ≠
      some (ModAttr.hookedFunc ⟨"torch.nn.functional", "relu"⟩) ∧
    hookTorchModule ["relu"] exampleModule ["conv2d", "relu"] "native_conv2d" ≠
      some (ModAttr.hookedFunc ⟨"torch.nn.functional", "conv2d"⟩) := by
  constructor
  · apply hooked_func_command_shape.2 ["relu"] exampleModule ["conv2d", "relu"]
      (by
        intro k g h
        unfold exampleModule at h
        by_cases hk : k = "conv2d" <;> simp [hk] at h)
      "relu" (Or.inl (by rfl))
  · apply hooked_func_command_shape.2 ["relu"] exampleModule ["conv2d", "relu"]
      (by
        intro k g h
        unfold exampleModule at h
        by_cases hk : k = "conv2d" <;> simp [hk] at h)
      "native_conv2d" (Or.inr (by rfl))

/-- The process-wide state `TorchHook.__init__` reads and writes: the
`torch_hooked` marker on the torch module, the attribute tables of
`torch.Tensor`, `PointerTensor`, `LoggingTensor` and
`torch.nn.functional`, and the `syft.local_worker` global (workers are
identified by `Nat` ids; `none` means the attribute is unset). -/
structure TorchState where
  torchHooked : Bool
  tensorAttrs : AttrMap
  pointerAttrs : AttrMap
  loggingAttrs : AttrMap
  moduleFuncs : ModMap
  syftLocalWorker : Option Nat

/-- The fields of the constructed `TorchHook` instance that the claims
observe. -/
structure TorchHookRec where
  localWorker : Option Nat
deriving DecidableEq, Repr

/-- The result of running `TorchHook.__init__`: the constructed hook, the
updated process-wide state, and whether the `already hooked` warning was
logged. -/
structure HookOutcome where
  hook : TorchHookRec
  state : TorchState
  warned : Bool

/-- The id of the `workers.VirtualWorker(hook=self, is_client_worker=...,
id="me")` created when no local worker is passed. -/
def meWorkerId : Nat := 0

/-- Embedding of `TorchHook.__init__`: if the torch module already carries the
`torch_hooked` marker, log a warning, overwrite `self.local_worker` with
the global `syft.local_worker` and return with the state untouched;
otherwise set the marker, pick (or create) the local worker, compute the
auto-overload list once, hook the native tensor methods, the
`PointerTensor` and `LoggingTensor` methods and the torch module
functions, and publish the local worker to `syft.local_worker`. -/
def torchHookInit (s : TorchState) (exclude : List String) (members : List Member)
    (moduleFuncNames : List String) (localWorker : Option Nat) : HookOutcome :=
  match s.torchHooked with
  | true =>
      { hook := { localWorker := s.syftLocalWorker }, state := s, warned := true }
  | false =>
      let toOverload := whichMethodsShouldWeAutoOverload exclude members
      let lw := localWorker.getD meWorkerId
      { hook := { localWorker := some lw },
        state :=
          { torchHooked := true,
            tensorAttrs := hookNativeMethods s.tensorAttrs toOverload,
            pointerAttrs := hookPointerTensorMethods s.pointerAttrs toOverload,
            loggingAttrs := hookSyftTensorMethods s.loggingAttrs toOverload,
            moduleFuncs := hookTorchModule exclude s.moduleFuncs moduleFuncNames,
            syftLocalWorker := some lw },
        warned := false }

/-- The state left behind by `TorchHook.__init__` always carries the
`torch_hooked` marker. -/
theorem torchHookInit_state_hooked (s : TorchState) (exclude : List String)
    (members : List Member) (moduleFuncNames : List String) (localWorker : Option Nat) :
    (torchHookInit s exclude members moduleFuncNames localWorker).state.torchHooked = true := by
  cases hs : s.torchHooked <;> simp only [torchHookInit, hs]

/-- On an already-hooked state `TorchHook.__init__` returns the state
unchanged, the warning flag, and the published global worker. -/
theorem torchHookInit_of_hooked (s : TorchState) (h : s.torchHooked = true)
    (exclude : List String) (members : List Member) (moduleFuncNames : List String)
    (localWorker : Option Nat) :
    torchHookInit s exclude members moduleFuncNames localWorker =
      ⟨⟨s.syftLocalWorker⟩, s, true⟩ := by
  simp only [torchHookInit, h]

/-- After `TorchHook.__init__`, the global `syft.local_worker` of the
resulting state agrees with the constructed hook's `local_worker`. -/
theorem torchHookInit_worker_published (s : TorchState) (exclude : List String)
    (members : List Member) (moduleFuncNames : List String) (localWorker : Option Nat) :
    (torchHookInit s exclude members moduleFuncNames localWorker).state.syftLocalWorker =
      (torchHookInit s exclude members moduleFuncNames localWorker).hook.localWorker := by
  cases hs : s.torchHooked <;> simp only [torchHookInit, hs]

/-- C5: hooking is idempotent.  A second `TorchHook.__init__` on the state
left by any first one logs the warning and returns that state unchanged —
no dispatch table is modified — and, at the level of a single native
method, the guard on the saved `native_` name makes hooking a method twice
equal hooking it once, so no operation ever acquires a second level of
saved original. -/
theorem hooking_is_idempotent :
    (∀ (s : TorchState) (e : List String) (mem : List Member) (fn : List String)
        (w : Option Nat) (e2 : List String) (mem2 : List Member) (fn2 : List String)
        (w2 : Option Nat),
      (torchHookInit (torchHookInit s e mem fn w).state e2 mem2 fn2 w2).state =
        (torchHookInit s e mem fn w).state ∧
      (torchHookInit (torchHookInit s e mem fn w).state e2 mem2 fn2 w2).warned = true) ∧
    (∀ (m : AttrMap) (attr : String),
      hookOneMethod (hookOneMethod m attr) attr = hookOneMethod m attr) := by
  constructor
  · intro s e mem fn w e2 mem2 fn2 w2
    have h := torchHookInit_state_hooked s e mem fn w
    rw [torchHookInit_of_hooked _ h]
    exact ⟨rfl, rfl⟩
  · intro m attr
    cases hn : m ("native_" ++ attr) with
    | some v =>
        have hred : hookOneMethod m attr = m := by
          simp only [hookOneMethod, hn]
        rw [hred, hred]
    | none =>
        cases ha : m attr with
        | none =>
            have hred : hookOneMethod m attr = m := by
              simp only [hookOneMethod, hn, ha]
            rw [hred, hred]
        | some v =>
            have hred : hookOneMethod m attr =
                setAttr (setAttr m ("native_" ++ attr) v) attr (.hookedMethod attr) := by
              simp only [hookOneMethod, hn, ha]
            rw [hred]
            have hn2 : (setAttr (setAttr m ("native_" ++ attr) v) attr
                (.hookedMethod attr)) ("native_" ++ attr) = some v := by
              unfold setAttr
              have hne := native_prefix_ne attr
              simp [hne]
            simp only [hookOneMethod, hn2]

/-- C10: when the torch module is already hooked, `TorchHook.__init__`
discards the caller-supplied `local_worker`: the early-return path
overwrites `self.local_worker` with the global `syft.local_worker`, so the
worker passed in is irrelevant, and any hook constructed after a first one
carries the same local worker as that first hook. -/
theorem second_hook_discards_local_worker :
    (∀ (s : TorchState) (e : List String) (mem : List Member) (fn : List String)
        (w : Option Nat), s.torchHooked = true →
      (torchHookInit s e mem fn w).hook.localWorker = s.syftLocalWorker) ∧
    (∀ (s : TorchState) (e : List String) (mem : List Member) (fn : List String)
        (w1 : Option Nat) (e2 : List String) (mem2 : List Member) (fn2 : List String)
        (w2 : Option Nat),
      (torchHookInit (torchHookInit s e mem fn w1).state e2 mem2 fn2 w2).hook.localWorker =
        (torchHookInit s e mem fn w1).hook.localWorker) := by
  constructor
  · intro s e mem fn w hs
    rw [torchHookInit_of_hooked _ hs]
  · intro s e mem fn w1 e2 mem2 fn2 w2
    have h := torchHookInit_state_hooked s e mem fn w1
    rw [torchHookInit_of_hooked _ h]
    exact torchHookInit_worker_published s e mem fn w1

/-- A process state in which torch is already hooked and the first hook
published worker `42` to `syft.local_worker`. -/
def hookedState : TorchState :=
  { torchHooked := true,
    tensorAttrs := fun _ => none,
    pointerAttrs := fun _ => none,
    loggingAttrs := fun _ => none,
    moduleFuncs := fun _ => none,
    syftLocalWorker := some 42 }

/-- Witness for C10: constructing a hook on the already-hooked state with
the caller-supplied worker `99` yields local worker `42`, the one the
first hook published. -/
theorem second_hook_discards_local_worker_witness :
    hookedState.torchHooked = true ∧
    (torchHookInit hookedState [] [] [] (some 99)).hook.localWorker = some 42 :=
  ⟨rfl, second_hook_discards_local_worker.1 hookedState [] [] [] (some 99) rfl⟩

/-- The per-instance state read by the `id` property installed by
`_hook_properties`: the `_id` attribute, `none` while unset. -/
structure TensorInstance where
  idAttr : Option Int
deriving DecidableEq, Repr

/-- The `id` property getter: on first read, when `_id` is absent, compute
`int(10e10 * random.random())` and store it in `_id`; afterwards return
the stored `_id`.  The draw of `random.random()` is modelled as a rational
`r` (with `0 ≤ r < 1` in the theorems), and `int(·)` of the non-negative
product is the floor. -/
def idGet (t : TensorInstance) (r : ℚ) : Int × TensorInstance :=
  match t.idAttr with
  | some v => (v, t)
  | none =>
      let v : Int := ⌊(100000000000 : ℚ) * r⌋
      (v, { idAttr := some v })

/-- C8: the identifier is lazily allocated.  On a fresh instance the first
read of `id` draws `int(10e10 * random.random())` — a non-negative integer
strictly below `10 ^ 11` — and stores it in `_id`, and any subsequent read
(whatever the random draw would be) returns the same stored value without
changing the instance. -/
theorem id_lazily_allocated (t : TensorInstance) (r r' : ℚ)
    (h0 : 0 ≤ r) (h1 : r < 1) (hfresh : t.idAttr = none) :
    0 ≤ (idGet t r).1 ∧ (idGet t r).1 < 10 ^ 11 ∧
    (idGet t r).2.idAttr = some (idGet t r).1 ∧
    idGet (idGet t r).2 r' = ((idGet t r).1, (idGet t r).2) := by
  cases t with
  | mk oid =>
      cases hfresh
      refine ⟨?_, ?_, rfl, rfl⟩
      · simp only [idGet]
        exact Int.floor_nonneg.mpr (mul_nonneg (by norm_num) h0)
      · simp only [idGet]
        apply Int.floor_lt.mpr
        have hr : (100000000000 : ℚ) * r < 100000000000 := by
          have := mul_lt_of_lt_one_right (by norm_num : (0:ℚ) < 100000000000) h1
          simpa using this
        push_cast
        linarith

/-- Witness for C8: a fresh instance read with draw `r = 1/2` stores and
returns `50000000000`, and a second read with a different draw returns the
same value. -/
theorem id_lazily_allocated_witness :
    (0 : ℚ) ≤ 1 / 2 ∧ (1 / 2 : ℚ) < 1 ∧ (⟨none⟩ : TensorInstance).idAttr = none ∧
    (0 ≤ (idGet ⟨none⟩ (1 / 2)).1 ∧ (idGet ⟨none⟩ (1 / 2)).1 < 10 ^ 11 ∧
      (idGet ⟨none⟩ (1 / 2)).2.idAttr = some (idGet ⟨none⟩ (1 / 2)).1 ∧
      idGet (idGet ⟨none⟩ (1 / 2)).2 (3 / 4) =
        ((idGet ⟨none⟩ (1 / 2)).1, (idGet ⟨none⟩ (1 / 2)).2)) :=
  ⟨by norm_num, by norm_num, rfl,
    id_lazily_allocated ⟨none⟩ (1 / 2) (3 / 4) (by norm_num) (by norm_num) rfl⟩

end SyftHook
